import Mathlib

/-!
# Verification of the `go-circuit-breaker` core

A shallow embedding of the circuit-breaker package: the sliding window
(`breaker/internal/window/window.go`), the breaker state machine
(`breaker/breaker.go`), the built-in trippers (`breaker/tripper.go`) and the
error predicates (`breaker/errors.go`).

Modelling conventions:
* `time.Time` and `time.Duration` are `Int` nanoseconds; `time.Time.Unix()`
  truncates to seconds (`t / 1000000000`); `time.Unix(s, 0)` is
  `s * 1000000000`.  The pluggable clock becomes an explicit `now : Int`
  argument threaded through every operation that calls `clock.Now()`.
* `backoff.BackOff` (an external collaborator from `github.com/cenk/backoff`)
  is modelled abstractly as a schedule `Nat → Int` plus a position index:
  `Reset()` moves the index to 0 and `NextBackOff()` returns the interval at
  the index and advances it.  `backoff.Stop` is the duration `-1`.
* atomics become plain fields (the embedding is of single-threaded
  executions); the compare-and-swap on the half-open gate becomes an explicit
  test-and-set.
-/

namespace CircuitBreaker

/-- The `backoff.Stop`, the sentinel duration `-1` from the backoff package. -/
def backoffStop : Int := -1

/-- The `time.Time.Unix()`: nanoseconds truncated to whole seconds. -/
def unixSec (t : Int) : Int := t / 1000000000

/-- The `time.Unix(s, 0)` expressed in nanoseconds. -/
def secToNs (s : Int) : Int := s * 1000000000

/-- The `State` enum of `breaker/interface.go`: `Open`, `Halfopen`, `Closed`. -/
inductive State where
  | Open
  | Halfopen
  | Closed
deriving DecidableEq, Repr

/-- Errors that can flow through `Call`: the sentinel values of
`breaker/errors.go`, an arbitrary error of the wrapped operation (indexed by a
`Nat` code), and the wrapper produced by `errors.Wrap` from `pkg/errors`,
which carries a message and exposes the wrapped error through `Cause()`. -/
inductive GoError where
  | breakerOpen
  | breakerTimeout
  | opErr (code : Nat)
  | wrap (msg : String) (cause : GoError)
deriving DecidableEq, Repr

/-- The `IsOpen` of `breaker/errors.go`: walk the `Cause()` chain and, at the
first error exposing `State()`, report whether that state is `Open`.
Only `breakerOpenErr` exposes `State()` and only `errors.Wrap` wrappers expose
`Cause()`; on an error exposing neither, the Go loop never terminates, which
the embedding records as `none`. -/
def IsOpen : GoError → Option Bool
  | .breakerOpen => some true
  | .wrap _ cause => IsOpen cause
  | _ => none

/-- The `IsTimeout` of `breaker/errors.go`, with the same shape as `IsOpen`:
only `breakerTimeoutErr` exposes `IsTimeout()`; `none` records a
non-terminating walk. -/
def IsTimeout : GoError → Option Bool
  | .breakerTimeout => some true
  | .wrap _ cause => IsTimeout cause
  | _ => none

/-- The `Bucket` of `window.go`: failure and success counts. -/
structure Bucket where
  failure : Int
  success : Int
deriving DecidableEq, Repr

namespace Bucket

/-- The `Bucket.Reset`: zero both counts. -/
def Reset (_ : Bucket) : Bucket := ⟨0, 0⟩

/-- The `Bucket.Fail`: increment the failure count. -/
def Fail (b : Bucket) : Bucket := { b with failure := b.failure + 1 }

/-- The `Bucket.Success`: increment the success count. -/
def Success (b : Bucket) : Bucket := { b with success := b.success + 1 }

end Bucket

/-- The `Window` of `window.go`: a ring of buckets (head of the list is the ring's
current bucket), the per-bucket duration, and the time of last advancing
access.  The mutex is concurrency plumbing and has no single-threaded
content. -/
structure Window where
  buckets : List Bucket
  bucketTime : Int
  lastAccess : Int
deriving DecidableEq, Repr

namespace Window

/-- The `ring.Next()`: move the ring's current position one step forward.  With
the current bucket at the head of the list, the head moves to the back. -/
def ringNext : List Bucket → List Bucket
  | [] => []
  | b :: rest => rest ++ [b]

/-- Replace the ring's current bucket (the head) by the result of `f`. -/
def mapHead (f : Bucket → Bucket) : List Bucket → List Bucket
  | [] => []
  | b :: rest => f b :: rest

/-- The reset loop inside `getLatestBucket`: up to `fuel` (= ring size) times,
advance the ring, zero the new current bucket, subtract one bucket-interval
from `elapsed`, and stop early once `elapsed < bucketTime`. -/
def advanceLoop (bucketTime : Int) : Nat → Int → List Bucket → List Bucket
  | 0, _, bks => bks
  | fuel + 1, elapsed, bks =>
    let bks1 := mapHead Bucket.Reset (ringNext bks)
    let elapsed1 := elapsed - bucketTime
    if elapsed1 < bucketTime then bks1 else advanceLoop bucketTime fuel elapsed1 bks1

/-- The `Window.getLatestBucket`: if more than one bucket-interval elapsed since
the last access, advance the ring zeroing skipped buckets (at most ring-size
steps) and stamp the access time; the current bucket is then the head. -/
def getLatestBucket (now : Int) (w : Window) : Window :=
  if now - w.lastAccess > w.bucketTime then
    { w with
        buckets := advanceLoop w.bucketTime w.buckets.length (now - w.lastAccess) w.buckets
        lastAccess := now }
  else
    w

/-- The `window.New`: `windowBuckets` zeroed buckets, each covering
`windowTime / windowBuckets`, last access stamped at construction time. -/
def New (now : Int) (windowTime : Int) (windowBuckets : Nat) : Window :=
  { buckets := List.replicate windowBuckets ⟨0, 0⟩
    bucketTime := windowTime / windowBuckets
    lastAccess := now }

/-- The `Window.Fail`: advance to the latest bucket, then increment its failure
count. -/
def Fail (now : Int) (w : Window) : Window :=
  let w1 := getLatestBucket now w
  { w1 with buckets := mapHead Bucket.Fail w1.buckets }

/-- The `Window.Success`: advance to the latest bucket, then increment its
success count. -/
def Success (now : Int) (w : Window) : Window :=
  let w1 := getLatestBucket now w
  { w1 with buckets := mapHead Bucket.Success w1.buckets }

/-- The `Window.Failures`: sum of the failure counts over all buckets.  Note that
the read path performs no ring advance: it only takes the read-lock and
sums. -/
def Failures (w : Window) : Int :=
  w.buckets.foldl (fun acc b => acc + b.failure) 0

/-- The `Window.Successes`: sum of the success counts over all buckets; again no
ring advance on the read path. -/
def Successes (w : Window) : Int :=
  w.buckets.foldl (fun acc b => acc + b.success) 0

/-- The `Window.Reset`: zero every bucket in place; neither the ring position nor
the last-access time changes. -/
def Reset (w : Window) : Window :=
  { w with buckets := w.buckets.map Bucket.Reset }

end Window

/-- The mutable fields of the `breaker` struct (`breaker/interface.go`).
`lastFailure` holds Unix seconds, exactly as `atomic.StoreInt64(&cb.lastFailure,
now.Unix())` does; `boIdx` is the abstract backoff policy's position. -/
structure BreakerState where
  broken : Bool
  tripped : Bool
  consecFailures : Int
  halfOpens : Int
  lastFailure : Int
  nextBackOff : Int
  boIdx : Nat
  counts : Window
deriving DecidableEq, Repr

/-- The immutable configuration of a breaker: the backoff policy's interval
schedule and the tripper predicate (which, like Go's `Tripper.Trip`, receives
the breaker and may inspect its counters). -/
structure Config where
  schedule : Nat → Int
  tripper : BreakerState → Bool

namespace Breaker

/-- The `breaker.Trip`: set the tripped flag and stamp the last-failure time with
`clock.Now().Unix()`. -/
def Trip (now : Int) (s : BreakerState) : BreakerState :=
  { s with tripped := true, lastFailure := unixSec now }

/-- The `breaker.Break`: set the broken flag, then `Trip()`. -/
def Break (now : Int) (s : BreakerState) : BreakerState :=
  Trip now { s with broken := true }

/-- The `breaker.Tripped`. -/
def Tripped (s : BreakerState) : Bool := s.tripped

/-- The `breaker.Failures`. -/
def Failures (s : BreakerState) : Int := s.counts.Failures

/-- The `breaker.Successes`. -/
def Successes (s : BreakerState) : Int := s.counts.Successes

/-- The `breaker.ConsecFailures`. -/
def ConsecFailures (s : BreakerState) : Int := s.consecFailures

/-- The `breaker.State`: `Closed` when not tripped; `Open` when broken; otherwise
compute `since = now - time.Unix(lastFailure, 0)` and, when the current
backoff interval is not `Stop` and `since` strictly exceeds it, try the
compare-and-swap of the half-open gate from 0 to 1; on success advance the
backoff schedule and return `Halfopen`, else return `Open`. -/
def State' (cfg : Config) (now : Int) (s : BreakerState) : State × BreakerState :=
  if s.tripped = false then (State.Closed, s)
  else if s.broken = true then (State.Open, s)
  else
    if s.nextBackOff ≠ backoffStop ∧ now - secToNs s.lastFailure > s.nextBackOff then
      if s.halfOpens = 0 then
        (State.Halfopen,
          { s with
              halfOpens := 1
              nextBackOff := cfg.schedule s.boIdx
              boIdx := s.boIdx + 1 })
      else (State.Open, s)
    else (State.Open, s)

/-- The `breaker.Ready`: query `State()`; on `Halfopen` release the gate
(`halfOpens := 0`) and report ready; on `Closed` report ready; otherwise
report not ready. -/
def Ready (cfg : Config) (now : Int) (s : BreakerState) :
    Bool × State × BreakerState :=
  match State' cfg now s with
  | (State.Halfopen, s1) => (true, State.Halfopen, { s1 with halfOpens := 0 })
  | (State.Closed, s1) => (true, State.Closed, s1)
  | (st, s1) => (false, st, s1)

/-- The `breaker.ResetCounters`: zero the consecutive-failure counter and the
window's buckets. -/
def ResetCounters (s : BreakerState) : BreakerState :=
  { s with consecFailures := 0, counts := s.counts.Reset }

/-- The `breaker.Reset`: clear broken, tripped and the half-open gate, then
`ResetCounters()`.  The backoff fields are untouched. -/
def Reset (s : BreakerState) : BreakerState :=
  ResetCounters { s with broken := false, tripped := false, halfOpens := 0 }

/-- The `breaker.fail`: record a failure in the window, bump the consecutive
counter, stamp the last-failure time, then consult the tripper (on the
already-updated breaker) and `Trip()` if it says so. -/
def fail (cfg : Config) (now : Int) (s : BreakerState) : BreakerState :=
  let s1 := { s with counts := s.counts.Fail now }
  let s2 := { s1 with consecFailures := s1.consecFailures + 1 }
  let s3 := { s2 with lastFailure := unixSec now }
  if cfg.tripper s3 then Trip now s3 else s3

/-- The `breaker.success`: reset the backoff policy and recompute the next
interval; if the state observed at admission was `Halfopen`, perform a full
`Reset()`; finally zero the consecutive counter and record a success in the
window. -/
def success (cfg : Config) (now : Int) (st : State) (s : BreakerState) :
    BreakerState :=
  let s1 := { s with nextBackOff := cfg.schedule 0, boIdx := 1 }
  let s2 := if st = State.Halfopen then Reset s1 else s1
  let s3 := { s2 with consecFailures := 0 }
  { s3 with counts := s3.counts.Success now }

/-- The `breaker.Call` with the synchronous (`timeout == 0`) execution path:
check `Ready()`; when not ready return `errors.Wrap(ErrBreakerOpen, ...)`
without running the circuit; when ready run the circuit (its outcome is the
`outcome` argument) and dispatch to the success or failure handler.  The
first component records whether the circuit was executed. -/
def Call (cfg : Config) (now : Int) (outcome : Option GoError)
    (s : BreakerState) : Bool × Option GoError × BreakerState :=
  match Ready cfg now s with
  | (true, st, s1) =>
    match outcome with
    | none => (true, none, success cfg now st s1)
    | some e => (true, some e, fail cfg now s1)
  | (false, _, s1) =>
    (false, some (GoError.wrap "failed to execute circuit" GoError.breakerOpen), s1)

end Breaker

/-- The `DefaultWindowTime`: 10 seconds, in nanoseconds. -/
def DefaultWindowTime : Int := 10000000000

/-- The `DefaultWindowBuckets`: 10. -/
def DefaultWindowBuckets : Nat := 10

/-- The `breaker.New`: fresh flags and counters (Go zero values), one initial
`NextBackOff()` call to seed `nextBackOff`, and a fresh window stamped at
construction time. -/
def New (cfg : Config) (now : Int) (windowTime : Int) (windowBuckets : Nat) :
    BreakerState :=
  { broken := false
    tripped := false
    consecFailures := 0
    halfOpens := 0
    lastFailure := 0
    nextBackOff := cfg.schedule 0
    boIdx := 1
    counts := Window.New now windowTime windowBuckets }

/-- The `NilTripper`: never trips. -/
def NilTripper : BreakerState → Bool := fun _ => false

/-- The `ThresholdTripper(threshold)`: trips when `cb.Failures() >= threshold`. -/
def ThresholdTripper (threshold : Int) : BreakerState → Bool :=
  fun cb => decide (Breaker.Failures cb ≥ threshold)

/-- The `ConsecutiveTripper(threshold)`: trips when
`cb.ConsecFailures() >= threshold`. -/
def ConsecutiveTripper (threshold : Int) : BreakerState → Bool :=
  fun cb => decide (Breaker.ConsecFailures cb ≥ threshold)

/-- The state-affecting public operations of the `Breaker` interface other
than `Reset()` (each carrying the clock reading at which it runs).  The pure
getters (`Tripped`, `Failures`, …) read atomics without writing and are
omitted; `fail`/`success` are unexported and reachable only through `Call`. -/
inductive TraceOp where
  | trip (now : Int)
  | brk (now : Int)
  | call (now : Int) (outcome : Option GoError)
  | stateQuery (now : Int)
  | readyQuery (now : Int)
  | resetCounters
deriving Repr

/-- Run one public operation, keeping only the state it leaves behind. -/
def applyOp (cfg : Config) : TraceOp → BreakerState → BreakerState
  | .trip now, s => Breaker.Trip now s
  | .brk now, s => Breaker.Break now s
  | .call now outcome, s => (Breaker.Call cfg now outcome s).2.2
  | .stateQuery now, s => (Breaker.State' cfg now s).2
  | .readyQuery now, s => (Breaker.Ready cfg now s).2.2
  | .resetCounters, s => Breaker.ResetCounters s

/-- Run a sequence of public operations. -/
def runOps (cfg : Config) : List TraceOp → BreakerState → BreakerState
  | [], s => s
  | op :: rest, s => runOps cfg rest (applyOp cfg op s)

section Lemmas

/-- The `State()` mutates the breaker only on the path that returns `Halfopen`. -/
theorem state'_snd_eq (cfg : Config) (now : Int) (s : BreakerState) :
    (Breaker.State' cfg now s).2 = s ∨
    (Breaker.State' cfg now s).1 = State.Halfopen := by
  unfold Breaker.State'
  split_ifs <;> simp

/-- On a tripped, broken breaker `State()` returns `Open` and changes
nothing. -/
theorem state'_of_broken (cfg : Config) (now : Int) (s : BreakerState)
    (ht : s.tripped = true) (hb : s.broken = true) :
    Breaker.State' cfg now s = (State.Open, s) := by
  simp [Breaker.State', ht, hb]

/-- On a tripped, broken breaker `Ready()` reports not ready and changes
nothing. -/
theorem ready_of_broken (cfg : Config) (now : Int) (s : BreakerState)
    (ht : s.tripped = true) (hb : s.broken = true) :
    Breaker.Ready cfg now s = (false, State.Open, s) := by
  simp [Breaker.Ready, state'_of_broken cfg now s ht hb]

/-- On a tripped, broken breaker `Call` rejects with the wrapped
`ErrBreakerOpen`, runs nothing and changes nothing. -/
theorem call_of_broken (cfg : Config) (now : Int) (outcome : Option GoError)
    (s : BreakerState) (ht : s.tripped = true) (hb : s.broken = true) :
    Breaker.Call cfg now outcome s =
      (false, some (GoError.wrap "failed to execute circuit" GoError.breakerOpen), s) := by
  simp [Breaker.Call, ready_of_broken cfg now s ht hb]

/-- When `Ready()` reports not ready, the observed state was `Open` and the
breaker is unchanged. -/
theorem ready_false_frame (cfg : Config) (now : Int) (s : BreakerState)
    (h : (Breaker.Ready cfg now s).1 = false) :
    Breaker.Ready cfg now s = (false, State.Open, s) := by
  rcases hst : Breaker.State' cfg now s with ⟨st, s1⟩
  have hsnd := state'_snd_eq cfg now s
  rw [hst] at hsnd
  cases st with
  | Open =>
    rcases hsnd with h2 | h2
    · simp only at h2
      subst h2
      simp [Breaker.Ready, hst]
    · exact absurd h2 (by simp)
  | Halfopen =>
    exfalso
    simp [Breaker.Ready, hst] at h
  | Closed =>
    exfalso
    simp [Breaker.Ready, hst] at h

/-- Every public operation other than `Reset()` keeps both the tripped and
the broken flag of a broken breaker set. -/
theorem applyOp_broken (cfg : Config) (op : TraceOp) (s : BreakerState)
    (ht : s.tripped = true) (hb : s.broken = true) :
    (applyOp cfg op s).tripped = true ∧ (applyOp cfg op s).broken = true := by
  cases op with
  | trip now => simp [applyOp, Breaker.Trip, ht, hb]
  | brk now => simp [applyOp, Breaker.Break, Breaker.Trip]
  | call now outcome =>
    simp only [applyOp]
    rw [call_of_broken cfg now outcome s ht hb]
    exact ⟨ht, hb⟩
  | stateQuery now =>
    simp only [applyOp]
    rw [state'_of_broken cfg now s ht hb]
    exact ⟨ht, hb⟩
  | readyQuery now =>
    simp only [applyOp]
    rw [ready_of_broken cfg now s ht hb]
    exact ⟨ht, hb⟩
  | resetCounters => simp [applyOp, Breaker.ResetCounters, ht, hb]

/-- Sequences of public operations other than `Reset()` preserve the broken
invariant. -/
theorem runOps_broken (cfg : Config) (ops : List TraceOp) :
    ∀ s : BreakerState, s.tripped = true → s.broken = true →
      (runOps cfg ops s).tripped = true ∧ (runOps cfg ops s).broken = true := by
  induction ops with
  | nil => exact fun s ht hb => ⟨ht, hb⟩
  | cons op rest ih =>
    intro s ht hb
    have h2 := applyOp_broken cfg op s ht hb
    simpa [runOps] using ih _ h2.1 h2.2

end Lemmas

/-- C2 — On a breaker that is not ready (`Ready()` returns `false`),
`Call` returns the wrapped `ErrBreakerOpen` (recognized by `IsOpen`), never
executes the wrapped operation, and leaves `Failures()`, `Successes()`,
`ConsecFailures()` and the tripped/broken flags unchanged. -/
theorem C2_open_rejection (cfg : Config) (now : Int) (outcome : Option GoError)
    (s : BreakerState) (h : (Breaker.Ready cfg now s).1 = false) :
    Breaker.Call cfg now outcome s =
      (false, some (GoError.wrap "failed to execute circuit" GoError.breakerOpen), s) ∧
    IsOpen (GoError.wrap "failed to execute circuit" GoError.breakerOpen) = some true ∧
    Breaker.Failures (Breaker.Call cfg now outcome s).2.2 = Breaker.Failures s ∧
    Breaker.Successes (Breaker.Call cfg now outcome s).2.2 = Breaker.Successes s ∧
    Breaker.ConsecFailures (Breaker.Call cfg now outcome s).2.2 =
      Breaker.ConsecFailures s ∧
    ((Breaker.Call cfg now outcome s).2.2).tripped = s.tripped ∧
    ((Breaker.Call cfg now outcome s).2.2).broken = s.broken := by
  have hcall : Breaker.Call cfg now outcome s =
      (false, some (GoError.wrap "failed to execute circuit" GoError.breakerOpen), s) := by
    simp [Breaker.Call, ready_false_frame cfg now s h]
  refine ⟨hcall, rfl, ?_, ?_, ?_, ?_, ?_⟩ <;> rw [hcall]

/-- Shared concrete configuration: constant one-second backoff schedule and
the never-tripping `NilTripper`. -/
def cfgNil : Config := { schedule := fun _ => 1000000000, tripper := NilTripper }

/-- A breaker freshly built at time 0 with the default 10s/10-bucket
window. -/
def bFresh : BreakerState := New cfgNil 0 DefaultWindowTime DefaultWindowBuckets

/-- The fresh breaker after `Break()` at time 0. -/
def bBroken : BreakerState := Breaker.Break 0 bFresh

/-- Witness for C2 at a concrete broken breaker. -/
theorem C2_open_rejection_witness :
    (Breaker.Ready cfgNil 5000000000 bBroken).1 = false ∧
    Breaker.Call cfgNil 5000000000 (some (GoError.opErr 7)) bBroken =
      (false, some (GoError.wrap "failed to execute circuit" GoError.breakerOpen),
        bBroken) :=
  ⟨by decide,
   (C2_open_rejection cfgNil 5000000000 (some (GoError.opErr 7)) bBroken (by decide)).1⟩

/-- C7 — After `Break()`, under any sequence of public operations that
does not include `Reset()`, `State()` returns `Open` at every later query,
for every clock reading: automatic recovery to `Halfopen` is disabled. -/
theorem C7_broken_always_open (cfg : Config) (ops : List TraceOp)
    (s : BreakerState) (now0 now : Int) :
    (Breaker.State' cfg now (runOps cfg ops (Breaker.Break now0 s))).1 =
      State.Open := by
  have hflags : (Breaker.Break now0 s).tripped = true ∧
      (Breaker.Break now0 s).broken = true := by
    simp [Breaker.Break, Breaker.Trip]
  have h := runOps_broken cfg ops (Breaker.Break now0 s) hflags.1 hflags.2
  rw [state'_of_broken cfg now _ h.1 h.2]

/-- C9 — `Reset()` clears the tripped flag, the broken flag, the trial
gate, the consecutive-failure counter and the window's buckets, but leaves
`nextBackOff` (and the backoff policy position) unchanged; only the success
handler resets the backoff policy and recomputes the next interval, so a
manual `Reset()` after backoff advances keeps the advanced interval. -/
theorem C9_reset_frame (cfg : Config) (now : Int) (st : State) (s : BreakerState) :
    (Breaker.Reset s).nextBackOff = s.nextBackOff ∧
    (Breaker.Reset s).boIdx = s.boIdx ∧
    (Breaker.Reset s).tripped = false ∧
    (Breaker.Reset s).broken = false ∧
    (Breaker.Reset s).halfOpens = 0 ∧
    (Breaker.Reset s).consecFailures = 0 ∧
    (Breaker.Reset s).counts = s.counts.Reset ∧
    (Breaker.success cfg now st s).nextBackOff = cfg.schedule 0 ∧
    (Breaker.success cfg now st s).boIdx = 1 := by
  refine ⟨rfl, rfl, rfl, rfl, rfl, rfl, rfl, ?_, ?_⟩ <;>
  · unfold Breaker.success
    by_cases hst : st = State.Halfopen <;>
      simp [hst, Breaker.Reset, Breaker.ResetCounters]

/-- C1 — On a tripped, non-broken breaker whose scheduled interval is not
`Stop`, `State()` returns `Halfopen` only if the elapsed time since the last
failure strictly exceeds the scheduled interval and the trial gate moves from
0 to 1; the scheduled interval is then advanced to the policy's next
interval, and a subsequent `State()` call before the new interval elapses
(with no intervening `Ready`, `Reset` or `Trip`) returns `Open`. -/
theorem C1_halfopen_gate (cfg : Config) (now now2 : Int) (s s1 : BreakerState)
    (ht : s.tripped = true) (hb : s.broken = false)
    (hstop : s.nextBackOff ≠ backoffStop)
    (h : Breaker.State' cfg now s = (State.Halfopen, s1)) :
    (now - secToNs s.lastFailure > s.nextBackOff ∧ s.halfOpens = 0 ∧
     s1.halfOpens = 1 ∧ s1.nextBackOff = cfg.schedule s.boIdx) ∧
    (now2 - secToNs s1.lastFailure ≤ s1.nextBackOff →
      (Breaker.State' cfg now2 s1).1 = State.Open) := by
  unfold Breaker.State' at h
  rw [if_neg (by simp [ht]), if_neg (by simp [hb])] at h
  by_cases hc1 : s.nextBackOff ≠ backoffStop ∧ now - secToNs s.lastFailure > s.nextBackOff
  · rw [if_pos hc1] at h
    by_cases hc2 : s.halfOpens = 0
    · rw [if_pos hc2] at h
      have hs1 := ((Prod.mk.injEq _ _ _ _).mp h).2
      refine ⟨⟨hc1.2, hc2, ?_, ?_⟩, fun _ => ?_⟩
      · rw [← hs1]
      · rw [← hs1]
      · rw [← hs1]
        simp only [Breaker.State']
        rw [if_neg (by simp [ht]), if_neg (by simp [hb])]
        split_ifs <;> simp_all
    · rw [if_neg hc2] at h
      exact absurd ((Prod.mk.injEq _ _ _ _).mp h).1 (by simp)
  · rw [if_neg hc1] at h
    exact absurd ((Prod.mk.injEq _ _ _ _).mp h).1 (by simp)

/-- The fresh breaker after `Trip()` at time 0. -/
def bTripped : BreakerState := Breaker.Trip 0 bFresh

/-- The state left behind by the `State()` call that observes `Halfopen` at
t = 3s on `bTripped`. -/
def bProbe : BreakerState := (Breaker.State' cfgNil 3000000000 bTripped).2

/-- Witness for C1 at a concrete tripped breaker polled at t = 3s. -/
theorem C1_halfopen_gate_witness :
    bTripped.tripped = true ∧ bTripped.broken = false ∧
    bTripped.nextBackOff ≠ backoffStop ∧
    Breaker.State' cfgNil 3000000000 bTripped = (State.Halfopen, bProbe) ∧
    (3000000000 - secToNs bTripped.lastFailure > bTripped.nextBackOff ∧
     bTripped.halfOpens = 0 ∧ bProbe.halfOpens = 1 ∧
     bProbe.nextBackOff = cfgNil.schedule bTripped.boIdx) ∧
    (Breaker.State' cfgNil 500000000 bProbe).1 = State.Open :=
  have h : Breaker.State' cfgNil 3000000000 bTripped = (State.Halfopen, bProbe) := by
    decide
  have main := C1_halfopen_gate cfgNil 3000000000 500000000 bTripped bProbe
    (by decide) (by decide) (by decide) h
  ⟨by decide, by decide, by decide, h, main.1, main.2 (by decide)⟩

/-- On a tripped breaker whose scheduled interval is `Stop`, `State()`
returns `Open` and changes nothing. -/
theorem state'_of_stop (cfg : Config) (now : Int) (s : BreakerState)
    (ht : s.tripped = true) (hs : s.nextBackOff = backoffStop) :
    Breaker.State' cfg now s = (State.Open, s) := by
  by_cases hb : s.broken = true
  · exact state'_of_broken cfg now s ht hb
  · simp [Breaker.State', ht, hb, hs]

/-- On a tripped breaker whose scheduled interval is `Stop`, `Ready()`
reports not ready and changes nothing. -/
theorem ready_of_stop (cfg : Config) (now : Int) (s : BreakerState)
    (ht : s.tripped = true) (hs : s.nextBackOff = backoffStop) :
    Breaker.Ready cfg now s = (false, State.Open, s) := by
  simp [Breaker.Ready, state'_of_stop cfg now s ht hs]

/-- On a tripped breaker whose scheduled interval is `Stop`, `Call` rejects
with the wrapped `ErrBreakerOpen` and changes nothing. -/
theorem call_of_stop (cfg : Config) (now : Int) (outcome : Option GoError)
    (s : BreakerState) (ht : s.tripped = true) (hs : s.nextBackOff = backoffStop) :
    Breaker.Call cfg now outcome s =
      (false, some (GoError.wrap "failed to execute circuit" GoError.breakerOpen), s) := by
  simp [Breaker.Call, ready_of_stop cfg now s ht hs]

/-- Every public operation other than `Reset()` keeps a tripped breaker with
a `Stop` interval tripped with the interval still `Stop`. -/
theorem applyOp_stop (cfg : Config) (op : TraceOp) (s : BreakerState)
    (ht : s.tripped = true) (hs : s.nextBackOff = backoffStop) :
    (applyOp cfg op s).tripped = true ∧
    (applyOp cfg op s).nextBackOff = backoffStop := by
  cases op with
  | trip now => simp [applyOp, Breaker.Trip, hs]
  | brk now => simp [applyOp, Breaker.Break, Breaker.Trip, hs]
  | call now outcome =>
    simp only [applyOp]
    rw [call_of_stop cfg now outcome s ht hs]
    exact ⟨ht, hs⟩
  | stateQuery now =>
    simp only [applyOp]
    rw [state'_of_stop cfg now s ht hs]
    exact ⟨ht, hs⟩
  | readyQuery now =>
    simp only [applyOp]
    rw [ready_of_stop cfg now s ht hs]
    exact ⟨ht, hs⟩
  | resetCounters => simp [applyOp, Breaker.ResetCounters, ht, hs]

/-- Sequences of public operations other than `Reset()` preserve the
tripped-with-`Stop`-interval invariant. -/
theorem runOps_stop (cfg : Config) (ops : List TraceOp) :
    ∀ s : BreakerState, s.tripped = true → s.nextBackOff = backoffStop →
      (runOps cfg ops s).tripped = true ∧
      (runOps cfg ops s).nextBackOff = backoffStop := by
  induction ops with
  | nil => exact fun s ht hs => ⟨ht, hs⟩
  | cons op rest ih =>
    intro s ht hs
    have h2 := applyOp_stop cfg op s ht hs
    simpa [runOps] using ih _ h2.1 h2.2

/-- C8 — With a backoff policy that always reports `Stop`, after `Trip()`
every subsequent `Call` (under any further sequence of public operations
other than `Reset()`) rejects with the `breaker open` error without running
the operation, and `Ready()` never reports ready again. -/
theorem C8_stop_never_recovers (cfg : Config)
    (hstop : ∀ i, cfg.schedule i = backoffStop)
    (t0 wt tTrip now : Int) (nb : Nat) (ops : List TraceOp)
    (outcome : Option GoError) :
    (Breaker.Ready cfg now
        (runOps cfg ops (Breaker.Trip tTrip (New cfg t0 wt nb)))).1 = false ∧
    Breaker.Call cfg now outcome
        (runOps cfg ops (Breaker.Trip tTrip (New cfg t0 wt nb))) =
      (false, some (GoError.wrap "failed to execute circuit" GoError.breakerOpen),
        runOps cfg ops (Breaker.Trip tTrip (New cfg t0 wt nb))) := by
  have ht : (Breaker.Trip tTrip (New cfg t0 wt nb)).tripped = true := rfl
  have hs : (Breaker.Trip tTrip (New cfg t0 wt nb)).nextBackOff = backoffStop := by
    simp [Breaker.Trip, New, hstop 0]
  have h := runOps_stop cfg ops _ ht hs
  constructor
  · rw [ready_of_stop cfg now _ h.1 h.2]
  · rw [call_of_stop cfg now outcome _ h.1 h.2]

/-- Concrete configuration whose backoff policy always reports `Stop`. -/
def cfgStop : Config := { schedule := fun _ => backoffStop, tripper := NilTripper }

/-- Witness for C8: a tripped always-stop breaker, one intervening rejected
call, then a later call and readiness query. -/
theorem C8_stop_never_recovers_witness :
    cfgStop.schedule 0 = backoffStop ∧
    (Breaker.Ready cfgStop 99000000000
        (runOps cfgStop [TraceOp.call 5000000000 none]
          (Breaker.Trip 0 (New cfgStop 0 DefaultWindowTime DefaultWindowBuckets)))).1 =
      false ∧
    Breaker.Call cfgStop 99000000000 (some (GoError.opErr 3))
        (runOps cfgStop [TraceOp.call 5000000000 none]
          (Breaker.Trip 0 (New cfgStop 0 DefaultWindowTime DefaultWindowBuckets))) =
      (false, some (GoError.wrap "failed to execute circuit" GoError.breakerOpen),
        runOps cfgStop [TraceOp.call 5000000000 none]
          (Breaker.Trip 0 (New cfgStop 0 DefaultWindowTime DefaultWindowBuckets))) :=
  have main := C8_stop_never_recovers cfgStop (fun _ => rfl) 0 DefaultWindowTime 0
    99000000000 DefaultWindowBuckets [TraceOp.call 5000000000 none]
    (some (GoError.opErr 3))
  ⟨rfl, main.1, main.2⟩

section WindowLemmas

/-- Every bucket of the list is zeroed. -/
def allZero (l : List Bucket) : Prop := ∀ b ∈ l, b = ⟨0, 0⟩

/-- The `Window.Reset` zeroes every bucket. -/
theorem allZero_map_reset (l : List Bucket) : allZero (l.map Bucket.Reset) := by
  intro b hb
  rcases List.mem_map.mp hb with ⟨a, _, rfl⟩
  rfl

/-- Advancing the ring permutes the buckets, preserving `allZero`. -/
theorem allZero_ringNext (l : List Bucket) (h : allZero l) :
    allZero (Window.ringNext l) := by
  cases l with
  | nil => exact h
  | cons x xs =>
    intro b hb
    simp only [Window.ringNext, List.mem_append, List.mem_singleton] at hb
    rcases hb with hb | hb
    · exact h b (List.mem_cons_of_mem x hb)
    · rw [hb]
      exact h x (List.mem_cons_self x xs)

/-- Zeroing the current bucket preserves `allZero`. -/
theorem allZero_mapHead_reset (l : List Bucket) (h : allZero l) :
    allZero (Window.mapHead Bucket.Reset l) := by
  cases l with
  | nil => exact h
  | cons x xs =>
    intro b hb
    simp only [Window.mapHead, List.mem_cons] at hb
    rcases hb with hb | hb
    · subst hb; rfl
    · exact h b (List.mem_cons_of_mem x hb)

/-- The skip-and-zero loop preserves `allZero`. -/
theorem allZero_advanceLoop (bt : Int) (fuel : Nat) (e : Int) (l : List Bucket)
    (h : allZero l) : allZero (Window.advanceLoop bt fuel e l) := by
  induction fuel generalizing e l with
  | zero => exact h
  | succ n ih =>
    have h1 := allZero_mapHead_reset _ (allZero_ringNext _ h)
    simp only [Window.advanceLoop]
    split_ifs
    · exact h1
    · exact ih _ _ h1

/-- The `getLatestBucket` preserves `allZero` (it only rotates and zeroes). -/
theorem allZero_getLatestBucket (now : Int) (w : Window) (h : allZero w.buckets) :
    allZero (Window.getLatestBucket now w).buckets := by
  unfold Window.getLatestBucket
  split_ifs
  · exact allZero_advanceLoop _ _ _ _ h
  · exact h

/-- Ring rotation preserves the number of buckets. -/
theorem ringNext_length (l : List Bucket) :
    (Window.ringNext l).length = l.length := by
  cases l <;> simp [Window.ringNext]

/-- Updating the current bucket preserves the number of buckets. -/
theorem mapHead_length (f : Bucket → Bucket) (l : List Bucket) :
    (Window.mapHead f l).length = l.length := by
  cases l <;> simp [Window.mapHead]

/-- The skip-and-zero loop preserves the number of buckets. -/
theorem advanceLoop_length (bt : Int) (fuel : Nat) (e : Int) (l : List Bucket) :
    (Window.advanceLoop bt fuel e l).length = l.length := by
  induction fuel generalizing e l with
  | zero => rfl
  | succ n ih =>
    simp only [Window.advanceLoop]
    split_ifs
    · rw [mapHead_length, ringNext_length]
    · rw [ih, mapHead_length, ringNext_length]

/-- The `getLatestBucket` preserves the number of buckets. -/
theorem getLatestBucket_length (now : Int) (w : Window) :
    (Window.getLatestBucket now w).buckets.length = w.buckets.length := by
  unfold Window.getLatestBucket
  split_ifs
  · exact advanceLoop_length _ _ _ _
  · rfl

/-- Summing failures over zeroed buckets contributes nothing. -/
theorem foldl_fail_zero (l : List Bucket) (h : allZero l) (a : Int) :
    l.foldl (fun acc b => acc + b.failure) a = a := by
  induction l generalizing a with
  | nil => rfl
  | cons x xs ih =>
    have hx : x = ⟨0, 0⟩ := h x (List.mem_cons_self x xs)
    simp only [List.foldl, hx]
    simpa using ih (fun b hb => h b (List.mem_cons_of_mem x hb)) a

/-- Summing successes over zeroed buckets contributes nothing. -/
theorem foldl_succ_zero (l : List Bucket) (h : allZero l) (a : Int) :
    l.foldl (fun acc b => acc + b.success) a = a := by
  induction l generalizing a with
  | nil => rfl
  | cons x xs ih =>
    have hx : x = ⟨0, 0⟩ := h x (List.mem_cons_self x xs)
    simp only [List.foldl, hx]
    simpa using ih (fun b hb => h b (List.mem_cons_of_mem x hb)) a

/-- Recording a success in an all-zero window leaves the failure total at 0. -/
theorem failures_success_allZero (now : Int) (w : Window) (h : allZero w.buckets) :
    (Window.Success now w).Failures = 0 := by
  have h1 := allZero_getLatestBucket now w h
  unfold Window.Success Window.Failures
  cases hb : (Window.getLatestBucket now w).buckets with
  | nil => simp [Window.mapHead, hb]
  | cons x xs =>
    have hx : x = ⟨0, 0⟩ := h1 x (by rw [hb]; exact List.mem_cons_self x xs)
    have hxs : allZero xs := fun b hbm => h1 b (by rw [hb]; exact List.mem_cons_of_mem x hbm)
    simp only [Window.mapHead, hb, List.foldl, hx, Bucket.Success]
    simpa using foldl_fail_zero xs hxs 0

/-- Recording a success in a nonempty all-zero window makes the success
total exactly 1. -/
theorem successes_success_allZero (now : Int) (w : Window) (h : allZero w.buckets)
    (hne : w.buckets ≠ []) : (Window.Success now w).Successes = 1 := by
  have h1 := allZero_getLatestBucket now w h
  unfold Window.Success Window.Successes
  cases hb : (Window.getLatestBucket now w).buckets with
  | nil =>
    exfalso
    have := getLatestBucket_length now w
    rw [hb] at this
    exact hne (List.eq_nil_of_length_eq_zero this.symm)
  | cons x xs =>
    have hx : x = ⟨0, 0⟩ := h1 x (by rw [hb]; exact List.mem_cons_self x xs)
    have hxs : allZero xs := fun b hbm => h1 b (by rw [hb]; exact List.mem_cons_of_mem x hbm)
    simp only [Window.mapHead, hb, List.foldl, hx, Bucket.Success]
    simpa using foldl_succ_zero xs hxs 1

end WindowLemmas

/-- The success handler at observed state `Halfopen` produces exactly the
fully reset state whose window is the zeroed window with one success
recorded. -/
theorem success_halfopen_eq (cfg : Config) (now : Int) (s : BreakerState) :
    Breaker.success cfg now State.Halfopen s =
      { broken := false, tripped := false, consecFailures := 0, halfOpens := 0,
        lastFailure := s.lastFailure, nextBackOff := cfg.schedule 0, boIdx := 1,
        counts := Window.Success now s.counts.Reset } := by
  simp [Breaker.success, Breaker.Reset, Breaker.ResetCounters]

/-- C3 — When `Call` admits the operation while the observed state is
`Halfopen` and the operation succeeds, afterwards `Tripped()` is false,
`Failures()` is 0, `ConsecFailures()` is 0 and the next scheduled backoff
interval equals the policy's initial interval. -/
theorem C3_probe_success_full_reset (cfg : Config) (now : Int)
    (s s1 : BreakerState)
    (h : Breaker.Ready cfg now s = (true, State.Halfopen, s1)) :
    Breaker.Call cfg now none s =
      (true, none, Breaker.success cfg now State.Halfopen s1) ∧
    Breaker.Tripped (Breaker.success cfg now State.Halfopen s1) = false ∧
    Breaker.Failures (Breaker.success cfg now State.Halfopen s1) = 0 ∧
    Breaker.ConsecFailures (Breaker.success cfg now State.Halfopen s1) = 0 ∧
    (Breaker.success cfg now State.Halfopen s1).nextBackOff = cfg.schedule 0 := by
  refine ⟨by simp [Breaker.Call, h], by rw [success_halfopen_eq]; rfl, ?_,
    by rw [success_halfopen_eq]; rfl, by rw [success_halfopen_eq]⟩
  rw [success_halfopen_eq]
  exact failures_success_allZero now s1.counts.Reset (allZero_map_reset _)

/-- The state left behind by the `Ready()` call that admits the probe at
t = 2s on `bTripped`. -/
def bAdmitted : BreakerState := (Breaker.Ready cfgNil 2000000000 bTripped).2.2

/-- Witness for C3: the tripped breaker probed and succeeding at t = 2s. -/
theorem C3_probe_success_full_reset_witness :
    Breaker.Ready cfgNil 2000000000 bTripped = (true, State.Halfopen, bAdmitted) ∧
    Breaker.Tripped (Breaker.success cfgNil 2000000000 State.Halfopen bAdmitted) = false ∧
    Breaker.Failures (Breaker.success cfgNil 2000000000 State.Halfopen bAdmitted) = 0 ∧
    Breaker.ConsecFailures (Breaker.success cfgNil 2000000000 State.Halfopen bAdmitted) = 0 ∧
    (Breaker.success cfgNil 2000000000 State.Halfopen bAdmitted).nextBackOff =
      cfgNil.schedule 0 :=
  have h : Breaker.Ready cfgNil 2000000000 bTripped =
      (true, State.Halfopen, bAdmitted) := by decide
  have main := C3_probe_success_full_reset cfgNil 2000000000 bTripped bAdmitted h
  ⟨h, main.2.1, main.2.2.1, main.2.2.2.1, main.2.2.2.2⟩

/-- C10 — After the success handler runs with observed state `Halfopen`,
`Successes()` returns 1, not 0: the success is recorded in the window after
the full `Reset()` zeroed all buckets. -/
theorem C10_probe_success_records_one (cfg : Config) (now : Int)
    (s : BreakerState) (hne : s.counts.buckets ≠ []) :
    Breaker.Successes (Breaker.success cfg now State.Halfopen s) = 1 := by
  rw [success_halfopen_eq]
  refine successes_success_allZero now s.counts.Reset (allZero_map_reset _) ?_
  simpa [Window.Reset] using hne

/-- Witness for C10 on the concrete tripped breaker. -/
theorem C10_probe_success_records_one_witness :
    bTripped.counts.buckets ≠ [] ∧
    Breaker.Successes (Breaker.success cfgNil 2000000000 State.Halfopen bTripped) = 1 :=
  ⟨by decide,
   C10_probe_success_records_one cfgNil 2000000000 bTripped (by decide)⟩

/-- The `k` consecutive applications of the failure handler at a fixed clock
reading. -/
def failN (cfg : Config) (now : Int) : Nat → BreakerState → BreakerState
  | 0, s => s
  | k + 1, s => Breaker.fail cfg now (failN cfg now k s)

/-- The failure handler written as one record update followed by the tripper
consultation (the three Go statements fused). -/
theorem fail_eq (cfg : Config) (now : Int) (s : BreakerState) :
    Breaker.fail cfg now s =
      (fun s3 => if cfg.tripper s3 then Breaker.Trip now s3 else s3)
        { s with counts := s.counts.Fail now,
                 consecFailures := s.consecFailures + 1,
                 lastFailure := unixSec now } := rfl

/-- Within one bucket-interval of the last access, recording a failure only
bumps the current bucket. -/
theorem windowFail_no_advance (now : Int) (w : Window)
    (h : ¬ now - w.lastAccess > w.bucketTime) :
    Window.Fail now w = { w with buckets := Window.mapHead Bucket.Fail w.buckets } := by
  simp [Window.Fail, Window.getLatestBucket, h]

/-- Pulling the accumulator out of the failure fold. -/
theorem foldl_fail_shift (l : List Bucket) (a : Int) :
    l.foldl (fun acc b => acc + b.failure) a =
      a + l.foldl (fun acc b => acc + b.failure) 0 := by
  induction l generalizing a with
  | nil => simp
  | cons x xs ih =>
    simp only [List.foldl]
    rw [ih (a + x.failure), ih (0 + x.failure)]
    ring

/-- Bumping the current bucket raises the failure total by one. -/
theorem failures_mapHead_fail (l : List Bucket) (hne : l ≠ []) :
    (Window.mapHead Bucket.Fail l).foldl (fun acc b => acc + b.failure) 0 =
      l.foldl (fun acc b => acc + b.failure) 0 + 1 := by
  cases l with
  | nil => exact absurd rfl hne
  | cons x xs =>
    simp only [Window.mapHead, List.foldl, Bucket.Fail]
    rw [foldl_fail_shift xs, foldl_fail_shift xs (0 + x.failure)]
    ring

/-- Updating the current bucket cannot empty the ring. -/
theorem mapHead_ne_nil (f : Bucket → Bucket) (l : List Bucket) (h : l ≠ []) :
    Window.mapHead f l ≠ [] := by
  cases l with
  | nil => exact absurd rfl h
  | cons x xs => simp [Window.mapHead]

/-- A freshly built ring is all zeroes. -/
theorem allZero_replicate (n : Nat) : allZero (List.replicate n ⟨0, 0⟩) :=
  fun _ hb => List.eq_of_mem_replicate hb

/-- One failure step under `ThresholdTripper N` with no window expiry:
the window's anatomy is preserved, the failure total rises by one, and the
breaker trips exactly when the new total reaches `N`. -/
theorem fail_threshold_step (cfg : Config) (N : Int)
    (hc : cfg.tripper = ThresholdTripper N) (now : Int) (s : BreakerState)
    (hnadv : ¬ now - s.counts.lastAccess > s.counts.bucketTime)
    (hne : s.counts.buckets ≠ []) :
    (Breaker.fail cfg now s).counts.lastAccess = s.counts.lastAccess ∧
    (Breaker.fail cfg now s).counts.bucketTime = s.counts.bucketTime ∧
    (Breaker.fail cfg now s).counts.buckets ≠ [] ∧
    Breaker.Failures (Breaker.fail cfg now s) = Breaker.Failures s + 1 ∧
    (Breaker.fail cfg now s).tripped =
      (s.tripped || decide (N ≤ Breaker.Failures s + 1)) := by
  have hw : s.counts.Fail now =
      { s.counts with buckets := Window.mapHead Bucket.Fail s.counts.buckets } :=
    windowFail_no_advance now s.counts hnadv
  have hFnew : Window.Failures (s.counts.Fail now) = Breaker.Failures s + 1 := by
    rw [hw]
    exact failures_mapHead_fail s.counts.buckets hne
  have htrip : cfg.tripper
      { s with counts := s.counts.Fail now,
               consecFailures := s.consecFailures + 1,
               lastFailure := unixSec now } =
      decide (N ≤ Breaker.Failures s + 1) := by
    rw [hc]
    unfold ThresholdTripper
    rw [show Breaker.Failures
        { s with counts := s.counts.Fail now,
                 consecFailures := s.consecFailures + 1,
                 lastFailure := unixSec now } =
        Window.Failures (s.counts.Fail now) from rfl, hFnew]
  rw [fail_eq]
  simp only [htrip]
  by_cases hd : N ≤ Breaker.Failures s + 1
  · simp only [decide_eq_true hd, if_true]
    refine ⟨?_, ?_, ?_, ?_, ?_⟩
    · show (Window.Fail now s.counts).lastAccess = s.counts.lastAccess
      rw [hw]
    · show (Window.Fail now s.counts).bucketTime = s.counts.bucketTime
      rw [hw]
    · show (Window.Fail now s.counts).buckets ≠ []
      rw [hw]
      exact mapHead_ne_nil _ _ hne
    · exact hFnew
    · simp [Breaker.Trip]
  · have hd2 : decide (N ≤ Breaker.Failures s + 1) = false := decide_eq_false hd
    simp only [hd2, Bool.false_eq_true, if_false]
    refine ⟨?_, ?_, ?_, ?_, ?_⟩
    · show (Window.Fail now s.counts).lastAccess = s.counts.lastAccess
      rw [hw]
    · show (Window.Fail now s.counts).bucketTime = s.counts.bucketTime
      rw [hw]
    · show (Window.Fail now s.counts).buckets ≠ []
      rw [hw]
      exact mapHead_ne_nil _ _ hne
    · exact hFnew
    · simp

/-- Invariant of `k` failures at construction time under
`ThresholdTripper N`: the window never rotates, the failure total is `k`,
and the breaker is tripped exactly when `k` has reached `N`. -/
theorem failN_threshold_inv (cfg : Config) (N : Int) (hN : 1 ≤ N)
    (t0 wt : Int) (nb : Nat) (hwt : 0 ≤ wt) (hnb : 0 < nb)
    (hc : cfg.tripper = ThresholdTripper N) (k : Nat) :
    (failN cfg t0 k (New cfg t0 wt nb)).counts.lastAccess = t0 ∧
    (failN cfg t0 k (New cfg t0 wt nb)).counts.bucketTime = wt / (nb : Int) ∧
    (failN cfg t0 k (New cfg t0 wt nb)).counts.buckets ≠ [] ∧
    Breaker.Failures (failN cfg t0 k (New cfg t0 wt nb)) = (k : Int) ∧
    (failN cfg t0 k (New cfg t0 wt nb)).tripped = decide (N ≤ (k : Int)) := by
  induction k with
  | zero =>
    refine ⟨rfl, rfl, ?_, ?_, ?_⟩
    · show List.replicate nb (⟨0, 0⟩ : Bucket) ≠ []
      simp only [ne_eq, List.replicate_eq_nil_iff]
      omega
    · exact foldl_fail_zero _ (allZero_replicate nb) 0
    · have h0 : ¬ (N ≤ (0 : Int)) := by omega
      simp [failN, New, h0]
  | succ k ih =>
    obtain ⟨hla, hbt, hne, hF, hT⟩ := ih
    have hq : 0 ≤ wt / (nb : Int) := Int.ediv_nonneg hwt (by positivity)
    have hnadv : ¬ t0 - (failN cfg t0 k (New cfg t0 wt nb)).counts.lastAccess >
        (failN cfg t0 k (New cfg t0 wt nb)).counts.bucketTime := by
      rw [hla, hbt]
      omega
    have hstep := fail_threshold_step cfg N hc t0 _ hnadv hne
    simp only [failN]
    refine ⟨?_, ?_, ?_, ?_, ?_⟩
    · rw [hstep.1, hla]
    · rw [hstep.2.1, hbt]
    · exact hstep.2.2.1
    · rw [hstep.2.2.2.1, hF]
      push_cast
      ring
    · rw [hstep.2.2.2.2, hT, hF]
      by_cases h1 : N ≤ (k : Int)
      · have h2 : N ≤ ((k : Int) + 1) := by omega
        have h3 : N ≤ (((k + 1 : Nat)) : Int) := by push_cast; omega
        simp [h1, h2, h3]
      · by_cases h2 : N ≤ ((k : Int) + 1)
        · have h3 : N ≤ (((k + 1 : Nat)) : Int) := by push_cast; omega
          simp [h1, h2, h3]
        · have h3 : ¬ (N ≤ (((k + 1 : Nat)) : Int)) := by push_cast; omega
          simp [h1, h2, h3]

/-- C5 — Under `ThresholdTripper N` (`N ≥ 1`), starting from a fresh
breaker, after each of the first `N − 1` consecutive failure-handler
applications (no window expiry in between — all at construction time) the
breaker is untripped, and as soon as the count reaches `N` it is tripped. -/
theorem C5_threshold_trips_at_N (cfg : Config) (N : Int) (hN : 1 ≤ N)
    (t0 wt : Int) (nb : Nat) (hwt : 0 ≤ wt) (hnb : 0 < nb)
    (hc : cfg.tripper = ThresholdTripper N) (k : Nat) :
    ((k : Int) < N →
      Breaker.Tripped (failN cfg t0 k (New cfg t0 wt nb)) = false) ∧
    (N ≤ (k : Int) →
      Breaker.Tripped (failN cfg t0 k (New cfg t0 wt nb)) = true) := by
  have h := failN_threshold_inv cfg N hN t0 wt nb hwt hnb hc k
  constructor
  · intro hk
    rw [Breaker.Tripped, h.2.2.2.2]
    simp
    omega
  · intro hk
    rw [Breaker.Tripped, h.2.2.2.2]
    simp [hk]

/-- Concrete configuration with `ThresholdTripper 2`. -/
def cfgThresh2 : Config :=
  { schedule := fun _ => 1000000000, tripper := ThresholdTripper 2 }

/-- Witness for C5 with `N = 2`: untripped after one failure, tripped after
two. -/
theorem C5_threshold_trips_at_N_witness :
    Breaker.Tripped
      (failN cfgThresh2 0 1 (New cfgThresh2 0 DefaultWindowTime DefaultWindowBuckets)) =
      false ∧
    Breaker.Tripped
      (failN cfgThresh2 0 2 (New cfgThresh2 0 DefaultWindowTime DefaultWindowBuckets)) =
      true :=
  ⟨(C5_threshold_trips_at_N cfgThresh2 2 (by decide) 0 DefaultWindowTime
      DefaultWindowBuckets (by decide) (by decide) rfl 1).1 (by decide),
   (C5_threshold_trips_at_N cfgThresh2 2 (by decide) 0 DefaultWindowTime
      DefaultWindowBuckets (by decide) (by decide) rfl 2).2 (by decide)⟩

/-- A handler-level event in a sequence of protected-call outcomes: a failing
call applies the failure handler; a succeeding call applies the success
handler with the state observed at that instant (`success(cb.State())`, the
way the breaker's tests drive the handlers directly). -/
inductive CallEv where
  | fail
  | succ
deriving DecidableEq, Repr

/-- Apply one handler-level event at a fixed clock reading. -/
def applyEv (cfg : Config) (now : Int) : CallEv → BreakerState → BreakerState
  | .fail, s => Breaker.fail cfg now s
  | .succ, s =>
    Breaker.success cfg now (Breaker.State' cfg now s).1 (Breaker.State' cfg now s).2

/-- Apply a sequence of handler-level events at a fixed clock reading. -/
def runEvents (cfg : Config) (now : Int) : List CallEv → BreakerState → BreakerState
  | [], s => s
  | e :: rest, s => runEvents cfg now rest (applyEv cfg now e s)

/-- The number of consecutive failures at the end of the sequence. -/
def trailingFails (evs : List CallEv) : Nat :=
  evs.foldl (fun acc e => match e with | .fail => acc + 1 | .succ => 0) 0

/-- Starting from `cur` consecutive failures already accumulated, checks that
no run of consecutive failures in `evs` ever reaches `N`. -/
def runsBelow (N : Int) : Int → List CallEv → Bool
  | _, [] => true
  | cur, .fail :: rest => decide (cur + 1 < N) && runsBelow N (cur + 1) rest
  | _, .succ :: rest => runsBelow N 0 rest

/-- Concrete configuration with `ConsecutiveTripper 2`. -/
def cfgConsec2 : Config :=
  { schedule := fun _ => 1000000000, tripper := ConsecutiveTripper 2 }

/-- C6 counterexample — Under `ConsecutiveTripper 2`, the sequence
fail, fail, success, fail has fewer than 2 uninterrupted trailing failures,
yet the breaker ends tripped: the first two failures trip it and the
interleaved success (admitted outside `Halfopen`) clears only the
consecutive counter, never the tripped flag.  This refutes the claim that
every sequence with fewer than `N` uninterrupted trailing failures leaves
the breaker untripped. -/
theorem C6_trailing_run_counterexample :
    trailingFails [CallEv.fail, CallEv.fail, CallEv.succ, CallEv.fail] < 2 ∧
    Breaker.Tripped (runEvents cfgConsec2 0
      [CallEv.fail, CallEv.fail, CallEv.succ, CallEv.fail]
      (New cfgConsec2 0 DefaultWindowTime DefaultWindowBuckets)) = true := by
  constructor
  · decide
  · decide

/-- Under `ConsecutiveTripper N`, a failure while the running count stays
below `N` neither trips the breaker nor does anything to the count but
increment it; iterated over a sequence in which no run of consecutive
failures reaches `N`, the breaker stays untripped. -/
theorem runEvents_consecutive_inv (N : Int) (cfg : Config)
    (hc : cfg.tripper = ConsecutiveTripper N) (now : Int) :
    ∀ (evs : List CallEv) (s : BreakerState), s.tripped = false →
      runsBelow N s.consecFailures evs = true →
      Breaker.Tripped (runEvents cfg now evs s) = false := by
  intro evs
  induction evs with
  | nil =>
    intro s hs _
    simpa [runEvents, Breaker.Tripped] using hs
  | cons e rest ih =>
    intro s hs hrb
    cases e with
    | fail =>
      simp only [runsBelow, Bool.and_eq_true, decide_eq_true_eq] at hrb
      have hfs : (Breaker.fail cfg now s).tripped = false ∧
          (Breaker.fail cfg now s).consecFailures = s.consecFailures + 1 := by
        rw [fail_eq]
        have hnot : cfg.tripper
            { s with counts := s.counts.Fail now,
                     consecFailures := s.consecFailures + 1,
                     lastFailure := unixSec now } = false := by
          rw [hc]
          unfold ConsecutiveTripper
          show decide (s.consecFailures + 1 ≥ N) = false
          exact decide_eq_false (by omega)
        simp only [hnot, Bool.false_eq_true, if_false]
        exact ⟨hs, trivial⟩
      simp only [runEvents, applyEv]
      exact ih _ hfs.1 (by rw [hfs.2]; exact hrb.2)
    | succ =>
      have hstate : Breaker.State' cfg now s = (State.Closed, s) := by
        simp [Breaker.State', hs]
      have happ : applyEv cfg now CallEv.succ s =
          Breaker.success cfg now State.Closed s := by
        simp [applyEv, hstate]
      have hsucc : (Breaker.success cfg now State.Closed s).tripped = false ∧
          (Breaker.success cfg now State.Closed s).consecFailures = 0 := by
        unfold Breaker.success
        simp [hs]
      simp only [runEvents, happ]
      apply ih _ hsucc.1
      rw [hsucc.2]
      simpa [runsBelow] using hrb

/-- C6 amended — Under `ConsecutiveTripper N`: the success handler sets
`ConsecFailures()` to 0, and for every handler-level sequence in which no run
of consecutive failures ever reaches `N`, the breaker stays untripped.  (A
bound on the trailing run alone is not enough — see the counterexample:
a trip is sticky, and a success admitted outside `Halfopen` does not clear
the tripped flag.) -/
theorem C6_consecutive_amended (N : Int) (cfg : Config)
    (hc : cfg.tripper = ConsecutiveTripper N) (now : Int) (evs : List CallEv)
    (s : BreakerState) (hs : s.tripped = false)
    (hrb : runsBelow N s.consecFailures evs = true) :
    (∀ st s2, (Breaker.success cfg now st s2).consecFailures = 0) ∧
    Breaker.Tripped (runEvents cfg now evs s) = false := by
  refine ⟨?_, runEvents_consecutive_inv N cfg hc now evs s hs hrb⟩
  intro st s2
  unfold Breaker.success
  by_cases hst : st = State.Halfopen <;>
    simp [hst, Breaker.Reset, Breaker.ResetCounters]

/-- Witness for the amended C6: fail, success, fail under
`ConsecutiveTripper 2` leaves the breaker untripped. -/
theorem C6_consecutive_amended_witness :
    (New cfgConsec2 0 DefaultWindowTime DefaultWindowBuckets).tripped = false ∧
    runsBelow 2
      (New cfgConsec2 0 DefaultWindowTime DefaultWindowBuckets).consecFailures
      [CallEv.fail, CallEv.succ, CallEv.fail] = true ∧
    Breaker.Tripped (runEvents cfgConsec2 0 [CallEv.fail, CallEv.succ, CallEv.fail]
      (New cfgConsec2 0 DefaultWindowTime DefaultWindowBuckets)) = false :=
  have main := C6_consecutive_amended 2 cfgConsec2 rfl 0
    [CallEv.fail, CallEv.succ, CallEv.fail]
    (New cfgConsec2 0 DefaultWindowTime DefaultWindowBuckets) (by decide) (by decide)
  ⟨by decide, by decide, main.2⟩

/-- The C4 scenario's window: 10 s split into 10 buckets, one failure
recorded at t = 0. -/
def wC4 : Window := Window.Fail 0 (Window.New 0 10000000000 10)

/-- C4 counterexample — In the 10s/10-bucket scenario with one failure
recorded and 11 s then elapsing with no intervening operation, `Failures()`
returns 1, not 0: the read path takes no clock reading at all (the embedded
`Window.Failures` has no time argument, mirroring the Go method, which only
sums the buckets under `RLock`), so no amount of elapsed time changes its
result. -/
theorem C4_read_no_advance_counterexample :
    Window.Failures wC4 = 1 ∧ ¬ Window.Failures wC4 = 0 := by
  constructor
  · decide
  · decide

/-- C4 amended — The failure stays visible to `Failures()` after 11
idle seconds (it returns 1); only recording accesses run the advance-and-zero
logic: a `Success` recorded at t = 11 s rotates the stale bucket out and
`Failures()` then returns 0, while a `Fail` recorded at t = 11 s leaves only
the newly recorded failure, so `Failures()` returns 1. -/
theorem C4_read_no_advance_amended :
    Window.Failures wC4 = 1 ∧
    Window.Failures (Window.Success 11000000000 wC4) = 0 ∧
    Window.Failures (Window.Fail 11000000000 wC4) = 1 := by
  refine ⟨?_, ?_, ?_⟩
  · decide
  · decide
  · decide

end CircuitBreaker
